import Mathlib

/-!
Verification development for the gesichtool face-extraction tool.

Gesichtool is a command-line batch tool: it parses options, then for each
input image (concurrently, bounded by a counting semaphore initialised to
the hardware concurrency) it loads the image, runs an external face
detector (dlib frontal-face detector or the OpenCV cascade classifier,
selected by a mode flag), and for each detected rectangle crops the image,
resizes the crop to the configured output size and writes it to
OUTDIR/face{image:03d}-{face:03d}.jpg.

This file gives a shallow embedding of the tool's own logic, translated
from src/gesichtool.cpp (the two-detector version) and
src/semaphore_guard.hpp:
  - pixel-level operations of the external image library are represented
    symbolically (an image is either a raw loaded image, a crop of an
    image, a resize, or a grayscale conversion), since their numerics are
    external to this repository;
  - the region-of-interest operation is fallible, mirroring the bounds
    assertion of the library's ROI constructor;
  - the external detectors are parameters of the run model;
  - the bounded-concurrency dispatch is modelled as a labelled transition
    system over the semaphore counter and per-task phases.
-/

/-- cv::Size, an integer width/height pair. -/
structure Size where
  width : Int
  height : Int
deriving DecidableEq, Repr

/-- cv::Rect, an integer rectangle: top-left corner plus size.
tl() is (x, y) and br() is (x + width, y + height). -/
structure Rect where
  x : Int
  y : Int
  width : Int
  height : Int
deriving DecidableEq, Repr

/-- Detector mode selector (enum class Mode). -/
inductive Mode
  | DLIB
  | OPENCV
deriving DecidableEq, Repr

/-- The Options record filled in by parse_args. Field order and defaults
follow the struct Options in gesichtool.cpp. -/
structure Options where
  mode : Mode := .DLIB
  images : List String := []
  output_directory : String := ""
  output_size : Size := ⟨512, 512⟩
  min_size : Option Size := some ⟨512, 512⟩
  max_size : Option Size := none
  verbose : Bool := false
  min_neighbors : Int := 3
deriving DecidableEq, Repr

/-- Symbolic images. A cv::Mat in this program is either the result of
cv::imread (raw), a region-of-interest crop, a cv::resize result, or a
cv::cvtColor grayscale conversion; the pixel contents are computed by the
external library and are kept symbolic here. -/
inductive Image
  | raw (cols rows : Int) (tag : Nat)
  | cropped (src : Image) (r : Rect)
  | resized (src : Image) (s : Size)
  | grayed (src : Image)
deriving DecidableEq, Repr

/-- Column count (cv::Mat::cols) of a symbolic image. -/
def Image.cols : Image → Int
  | .raw c _ _ => c
  | .cropped _ r => r.width
  | .resized _ s => s.width
  | .grayed src => src.cols

/-- Row count (cv::Mat::rows) of a symbolic image. -/
def Image.rows : Image → Int
  | .raw _ r _ => r
  | .cropped _ r => r.height
  | .resized _ s => s.height
  | .grayed src => src.rows

/-- The bounds condition checked by the assertion in cv::Mat's
region-of-interest constructor: 0 <= x, 0 <= width, x + width <= cols,
0 <= y, 0 <= height, y + height <= rows. -/
def rectInBounds (img : Image) (r : Rect) : Prop :=
  0 ≤ r.x ∧ 0 ≤ r.width ∧ r.x + r.width ≤ img.cols ∧
  0 ≤ r.y ∧ 0 ≤ r.height ∧ r.y + r.height ≤ img.rows

instance (img : Image) (r : Rect) : Decidable (rectInBounds img r) := by
  unfold rectInBounds; infer_instance

/-- image(rect), the region-of-interest crop. The library asserts the
rectangle lies inside the matrix and throws otherwise; modelled as an
Option. -/
def Image.roi (img : Image) (r : Rect) : Option Image :=
  if rectInBounds img r then some (.cropped img r) else none

/-- cv::resize to a fixed target size (the three-argument call used in
extract_faces). -/
def Image.resize (img : Image) (s : Size) : Image :=
  .resized img s

/-- Zero-padded three-digit decimal rendering, the {:03d} format used for
the output file names. Indices are non-negative. -/
def fmt3 (n : Nat) : String :=
  let s := toString n
  if s.length < 3 then String.mk (List.replicate (3 - s.length) '0') ++ s else s

/-- Whether a path string already ends with the directory separator. -/
def endsWithSlash (s : String) : Bool :=
  match s.data.getLast? with
  | some c => c = '/'
  | none => false

/-- std::filesystem::path operator/ followed by conversion to a string,
for a relative filename appended to the output directory. -/
def pathJoin (dir file : String) : String :=
  if dir = "" then file
  else if endsWithSlash dir then dir ++ file
  else dir ++ "/" ++ file

/-- Output file name for face number faceIdx of image number imageIdx:
output_directory / "face{imageIdx:03d}-{faceIdx:03d}.jpg". -/
def faceFilename (dir : String) (imageIdx faceIdx : Nat) : String :=
  pathJoin dir ("face" ++ fmt3 imageIdx ++ "-" ++ fmt3 faceIdx ++ ".jpg")

/-- The bounding-box adjustment performed at the top of the extract_faces
loop body: inflation is the constant 0 (the proportional inflation is
commented out in the source); the enlarged rectangle is
(x - inflation, y - inflation, width + 2*inflation, height + 2*inflation),
and if its top-left is negative or its bottom-right reaches past the image
it is replaced by the original rectangle. -/
def adjustRect (image : Image) (face : Rect) : Rect :=
  let inflation : Int := 0
  let enlarged : Rect :=
    ⟨face.x - inflation, face.y - inflation,
     face.width + inflation * 2, face.height + inflation * 2⟩
  if enlarged.x < 0 ∨ enlarged.y < 0 ∨
     enlarged.x + enlarged.width ≥ image.cols ∨
     enlarged.y + enlarged.height ≥ image.rows
  then face
  else enlarged

/-- One cv::imwrite call: target file name and the image written. -/
structure FileWrite where
  filename : String
  content : Image
deriving DecidableEq, Repr

/-- Loop of extract_faces over the remaining detected rectangles, carrying
the running face index. Returns the files written and, if the crop of some
rectangle fails the library's bounds assertion, the exception escaping the
loop at that point (files already written stay written). -/
def extractFacesLoop (image : Image) (imageIdx : Nat) (outputDir : String)
    (outputSize : Size) : List Rect → Nat → List FileWrite × Option String
  | [], _ => ([], none)
  | face :: restFaces, faceIdx =>
    let enlarged := adjustRect image face
    match image.roi enlarged with
    | none => ([], some "cv::Mat region of interest out of bounds")
    | some faceImage =>
      let w : FileWrite :=
        ⟨faceFilename outputDir imageIdx faceIdx, faceImage.resize outputSize⟩
      let rest := extractFacesLoop image imageIdx outputDir outputSize restFaces (faceIdx + 1)
      (w :: rest.1, rest.2)

/-- extract_faces(image, faces, image_idx, output_directory, output_size):
for each detected rectangle in order, adjust it, crop, resize to
output_size and write face{image_idx:03d}-{face_idx:03d}.jpg, with
face_idx counting up from 0. -/
def extract_faces (image : Image) (faces : List Rect) (imageIdx : Nat)
    (outputDir : String) (outputSize : Size) : List FileWrite × Option String :=
  extractFacesLoop image imageIdx outputDir outputSize faces 0

/-- Longest leading run of decimal digits of a character list, returned
together with the rest. -/
def takeDigits : List Char → List Char × List Char
  | [] => ([], [])
  | c :: cs =>
    if c.isDigit then
      let p := takeDigits cs
      (c :: p.1, p.2)
    else ([], c :: cs)

/-- Numeric value of a string of decimal digits. -/
def digitsToNat (ds : List Char) : Nat :=
  ds.foldl (fun acc c => acc * 10 + (c.toNat - 48)) 0

/-- Leading whitespace removal, as both std::stoi and the %d conversion of
sscanf skip whitespace before the number. The skipped set is that of
isspace in the C locale: space, horizontal tab, newline, vertical tab,
form feed and carriage return. -/
def skipSpaces : List Char → List Char
  | [] => []
  | c :: cs =>
    if c = ' ' ∨ c = '\t' ∨ c = '\n' ∨ c = '\x0b' ∨ c = '\x0c' ∨ c = '\r' then skipSpaces cs
    else c :: cs

/-- Leading decimal integer of a character list: skipped whitespace,
optional sign, at least one digit; returns the value and the unconsumed
rest, or none when no digit is found. Overflow of the machine int range is
not modelled. -/
def readInt? (cs : List Char) : Option (Int × List Char) :=
  match skipSpaces cs with
  | '-' :: rest =>
    match takeDigits rest with
    | ([], _) => none
    | (ds, rest2) => some (-(digitsToNat ds : Int), rest2)
  | '+' :: rest =>
    match takeDigits rest with
    | ([], _) => none
    | (ds, rest2) => some ((digitsToNat ds : Int), rest2)
  | other =>
    match takeDigits other with
    | ([], _) => none
    | (ds, rest2) => some ((digitsToNat ds : Int), rest2)

/-- std::stoi on the whole string: the leading integer, with trailing
characters ignored. none models both of its exceptions — invalid_argument
when no digits are found, and out_of_range when the converted value does
not fit the int range; parse_args catches either and rethrows the same
ArgParseError, so they collapse to one failure here. -/
def stoi? (s : String) : Option Int :=
  match readInt? s.toList with
  | none => none
  | some (v, _) => if v < -2147483648 ∨ 2147483647 < v then none else some v

/-- to_size: sscanf(text, "%dx%d") — a leading integer, then the literal
character x (not preceded by skipped whitespace), then a second integer;
none models the runtime_error thrown when fewer than two items convert.
A %d value outside the int range is undefined behaviour in the source, so
no overflow failure is modelled here. -/
def toSize? (s : String) : Option Size :=
  match readInt? s.toList with
  | none => none
  | some (w, rest) =>
    match rest with
    | 'x' :: rest2 =>
      match readInt? rest2 with
      | none => none
      | some (h, _) => some ⟨w, h⟩
    | _ => none

/-- Result of parse_args: a filled Options record, a thrown ArgParseError,
a thrown std::runtime_error (from to_size), or the help path that prints
the usage text and exits the process. -/
inductive ParseOutcome
  | ok (opts : Options)
  | argError (msg : String)
  | runtimeError (msg : String)
  | printedHelp
deriving DecidableEq, Repr

/-- Main loop of parse_args over the remaining argument vector, carrying
the Options record filled so far. Mirrors gesichtool.cpp: a non-empty
token starting with a dash is dispatched over the known options (a
value-taking option consumes the following token unconditionally, and
throws if there is none); any other token is appended to the image list;
after the loop, an empty image list and then an empty output directory are
rejected. -/
def parseArgsLoop : List String → Options → ParseOutcome
  | [], opts =>
    if opts.images.isEmpty then .argError "no input images given"
    else if opts.output_directory.isEmpty then .argError "no output directory given"
    else .ok opts
  | arg :: rest, opts =>
    match arg.toList with
    | '-' :: _ =>
      if arg = "-o" ∨ arg = "--option" then
        match rest with
        | [] => .argError (arg ++ " requires an argument")
        | v :: rest2 => parseArgsLoop rest2 { opts with output_directory := v }
      else if arg = "-v" ∨ arg = "--verbose" then
        parseArgsLoop rest { opts with verbose := true }
      else if arg = "-h" ∨ arg = "--help" then
        .printedHelp
      else if arg = "-n" ∨ arg = "--min-neighbors" then
        match rest with
        | [] => .argError (arg ++ " requires an argument")
        | v :: rest2 =>
          match stoi? v with
          | none => .argError ("invalid value " ++ v ++ " for argument")
          | some k => parseArgsLoop rest2 { opts with min_neighbors := k }
      else if arg = "--min-size" then
        match rest with
        | [] => .argError (arg ++ " requires an argument")
        | v :: rest2 =>
          match toSize? v with
          | none => .runtimeError ("failed to read cv::Size from " ++ v)
          | some sz => parseArgsLoop rest2 { opts with min_size := some sz }
      else if arg = "--max-size" then
        match rest with
        | [] => .argError (arg ++ " requires an argument")
        | v :: rest2 =>
          match toSize? v with
          | none => .runtimeError ("failed to read cv::Size from " ++ v)
          | some sz => parseArgsLoop rest2 { opts with max_size := some sz }
      else if arg = "--size" then
        match rest with
        | [] => .argError (arg ++ " requires an argument")
        | v :: rest2 =>
          match toSize? v with
          | none => .runtimeError ("failed to read cv::Size from " ++ v)
          | some sz => parseArgsLoop rest2 { opts with output_size := sz }
      else if arg = "--opencv" then
        parseArgsLoop rest { opts with mode := .OPENCV }
      else if arg = "--dlib" then
        parseArgsLoop rest { opts with mode := .DLIB }
      else
        .argError ("unknown argument " ++ arg ++ " given")
    | _ => parseArgsLoop rest { opts with images := opts.images ++ [arg] }

/-- parse_args(argv) starting from the default-initialised Options. -/
def parse_args (argv : List String) : ParseOutcome :=
  parseArgsLoop argv {}


/-- dlib::rectangle, with inclusive right/bottom edges. -/
structure DlibRectangle where
  left : Int
  top : Int
  right : Int
  bottom : Int
deriving DecidableEq, Repr

/-- dlib::rectangle::width, right - left + 1. -/
def DlibRectangle.width (r : DlibRectangle) : Int := r.right - r.left + 1

/-- dlib::rectangle::height, bottom - top + 1. -/
def DlibRectangle.height (r : DlibRectangle) : Int := r.bottom - r.top + 1

/-- The conversion loop in run_dlib: each dlib rectangle becomes
cv::Rect(left, top, width, height). -/
def dlibToRect (r : DlibRectangle) : Rect :=
  ⟨r.left, r.top, r.width, r.height⟩

/-- The dlib frontal-face detector, external to this repository: a
function from an image to detected dlib rectangles. -/
def DlibDetector : Type := Image → List DlibRectangle

/-- The OpenCV cascade classifier's detectMultiScale, external to this
repository: min size, max size and min-neighbors tune the detection. -/
def CvDetector : Type := Option Size → Option Size → Int → Image → List Rect

/-- detect_faces(face_cascade, image, min_size, max_size, min_neighbors):
a single detectMultiScale call on the loaded cascade. -/
def detect_faces (cvDetect : CvDetector) (image : Image)
    (minSize maxSize : Option Size) (minNeighbors : Int) : List Rect :=
  cvDetect minSize maxSize minNeighbors image

/-- Filesystem environment for cv::imread: none models the empty cv::Mat
returned for an unreadable file. -/
def ImageFs : Type := String → Option Image

/-- Observable result of one per-image task: the files it wrote, the lines
it printed to stderr, and the exception escaping its body, if any. -/
structure TaskResult where
  writes : List FileWrite
  stderrLines : List String
  exn : Option String
deriving DecidableEq, Repr

/-- Body of the per-image task spawned by run_opencv (inside the
semaphore guard): load the cascade, imread the path; an empty image gets
an error line on stderr and nothing else happens; otherwise detect_faces
then extract_faces. -/
def opencvTask (cvDetect : CvDetector) (fs : ImageFs) (opts : Options)
    (imagesIdx : Nat) (path : String) : TaskResult :=
  match fs path with
  | none => ⟨[], ["error: failed to read image: " ++ path], none⟩
  | some image =>
    let faces := detect_faces cvDetect image opts.min_size opts.max_size opts.min_neighbors
    let r := extract_faces image faces imagesIdx opts.output_directory opts.output_size
    ⟨r.1, [], r.2⟩

/-- Body of the per-image task spawned by run_dlib (inside the semaphore
guard): imread the path with no emptiness check, convert to grayscale
(cv::cvtColor's assertion fails on an empty input matrix, so an unreadable
image makes the task throw), run the dlib detector on the grayscale image,
convert the rectangles, then extract_faces on the colour image. -/
def dlibTask (dlibDetect : DlibDetector) (fs : ImageFs) (opts : Options)
    (imagesIdx : Nat) (path : String) : TaskResult :=
  match fs path with
  | none => ⟨[], [], some ("cv::cvtColor assertion failed: empty input image " ++ path)⟩
  | some image =>
    let gray := Image.grayed image
    let faces := (dlibDetect gray).map dlibToRect
    let r := extract_faces image faces imagesIdx opts.output_directory opts.output_size
    ⟨r.1, [], r.2⟩

/-- Which external detector a run invoked. -/
inductive DetectorKind
  | dlibFrontal
  | opencvCascade
deriving DecidableEq, Repr

/-- Observable result of a whole run: the detector invoked, the result of
each image's task in batch order, and the first task exception, which
run's join loop rethrows (futures of later tasks still complete). -/
structure RunResult where
  detector : DetectorKind
  tasks : List TaskResult
  exn : Option String
deriving DecidableEq, Repr

/-- First exception among the task results, in the order run joins the
futures. -/
def firstExn : List TaskResult → Option String
  | [] => none
  | t :: ts =>
    match t.exn with
    | some e => some e
    | none => firstExn ts

/-- run_dlib: one task per input image, indexed in batch order. -/
def run_dlib (dlibDetect : DlibDetector) (fs : ImageFs) (opts : Options) : RunResult :=
  let results := opts.images.enum.map fun p => dlibTask dlibDetect fs opts p.1 p.2
  ⟨.dlibFrontal, results, firstExn results⟩

/-- run_opencv: one task per input image, indexed in batch order. -/
def run_opencv (cvDetect : CvDetector) (fs : ImageFs) (opts : Options) : RunResult :=
  let results := opts.images.enum.map fun p => opencvTask cvDetect fs opts p.1 p.2
  ⟨.opencvCascade, results, firstExn results⟩

/-- run(opts): create the output directory, then dispatch on the mode
selector to run_opencv or run_dlib. -/
def run (dlibDetect : DlibDetector) (cvDetect : CvDetector) (fs : ImageFs)
    (opts : Options) : RunResult :=
  match opts.mode with
  | .OPENCV => run_opencv cvDetect fs opts
  | .DLIB => run_dlib dlibDetect fs opts

/-- The detector mode's detector kind, as the spec describes the
dispatch. -/
def modeDetector : Mode → DetectorKind
  | .DLIB => .dlibFrontal
  | .OPENCV => .opencvCascade

/-- Progress of one per-image task through its body: created by std::async
but not yet admitted; holding the semaphore slot (SemaphoreGuard
constructed); detector finished; extract_faces finished; slot released
(SemaphoreGuard destroyed, task complete). -/
inductive TaskPhase
  | created
  | acquired
  | detected
  | extracted
  | released
deriving DecidableEq, Repr

/-- Position of a phase in the task's pipeline order. -/
def TaskPhase.idx : TaskPhase → Nat
  | .created => 0
  | .acquired => 1
  | .detected => 2
  | .extracted => 3
  | .released => 4

/-- A task holds an admission slot between the semaphore acquire of its
SemaphoreGuard's constructor and the release of the destructor. -/
def holdsSlot : TaskPhase → Bool
  | .acquired => true
  | .detected => true
  | .extracted => true
  | _ => false

/-- Shared and per-task state of one run of the bounded-concurrency
dispatch: the parsed options (captured by const reference by every task
lambda), the counting semaphore's counter, the phase of each task, and
whether run has passed the join loop and returned. The semaphore counter
is the only field any two tasks both write. -/
structure SchedState where
  opts : Options
  sem : Nat
  phases : List TaskPhase
  returned : Bool
deriving DecidableEq, Repr

/-- Observable scheduler events: task i acquires its slot, finishes
detection, finishes extracting (all its faces saved), releases its slot;
run returns from the join loop. -/
inductive Ev
  | acq (i : Nat)
  | det (i : Nat)
  | ext (i : Nat)
  | rel (i : Nat)
  | ret
deriving DecidableEq, Repr

/-- Interleaving semantics of run: any task may take its next pipeline
step, except that acquiring needs a positive semaphore counter
(std::counting_semaphore::acquire blocks at zero) and run returns only
once every task has completed (future::get of every future has
returned). The options are never written. -/
inductive SchedStep : SchedState → Ev → SchedState → Prop
  | acq (s : SchedState) (i : Nat)
      (hi : s.phases.get? i = some .created) (hs : 0 < s.sem) :
      SchedStep s (.acq i)
        { s with sem := s.sem - 1, phases := s.phases.set i .acquired }
  | det (s : SchedState) (i : Nat)
      (hi : s.phases.get? i = some .acquired) :
      SchedStep s (.det i) { s with phases := s.phases.set i .detected }
  | ext (s : SchedState) (i : Nat)
      (hi : s.phases.get? i = some .detected) :
      SchedStep s (.ext i) { s with phases := s.phases.set i .extracted }
  | rel (s : SchedState) (i : Nat)
      (hi : s.phases.get? i = some .extracted) :
      SchedStep s (.rel i)
        { s with sem := s.sem + 1, phases := s.phases.set i .released }
  | ret (s : SchedState)
      (hall : ∀ p ∈ s.phases, p = TaskPhase.released) (hr : s.returned = false) :
      SchedStep s .ret { s with returned := true }

/-- Executions: reflexive-transitive closure of SchedStep, recording the
event trace. -/
inductive Exec : SchedState → List Ev → SchedState → Prop
  | refl (s : SchedState) : Exec s [] s
  | step {s1 s2 s3 : SchedState} {e : Ev} {tr : List Ev}
      (hstep : SchedStep s1 e s2) (hrest : Exec s2 tr s3) : Exec s1 (e :: tr) s3

/-- State at the start of run_dlib / run_opencv: the semaphore initialised
to std::thread::hardware_concurrency() (hw), one created task per input
image, run not yet returned. -/
def initState (opts : Options) (hw : Nat) : SchedState :=
  ⟨opts, hw, List.replicate opts.images.length .created, false⟩

/-- Helper: countP after a point update, in terms of the old and the new
element. -/
theorem countP_set_aux {α : Type} (p : α → Bool) (l : List α) (i : Nat) (a b : α)
    (h : l.get? i = some a) :
    (l.set i b).countP p + (if p a then 1 else 0) = l.countP p + (if p b then 1 else 0) := by
  induction l generalizing i with
  | nil => simp at h
  | cons hd tl ih =>
    cases i with
    | zero =>
      simp only [List.get?] at h
      injection h with h
      subst h
      simp only [List.set, List.countP_cons]
      omega
    | succ n =>
      simp only [List.get?] at h
      have := ih n h
      simp only [List.set, List.countP_cons]
      omega

/-- Helper: the number of slot-holding tasks plus the semaphore counter is
invariant under a single scheduler step. -/
theorem schedStep_slot_sum {s1 s2 : SchedState} {e : Ev} (h : SchedStep s1 e s2) :
    s2.phases.countP holdsSlot + s2.sem = s1.phases.countP holdsSlot + s1.sem := by
  cases h with
  | acq i hi hs =>
    have hc := countP_set_aux holdsSlot s1.phases i .created .acquired hi
    simp [holdsSlot] at hc
    simp only [SchedState.mk.injEq]
    omega
  | det i hi =>
    have hc := countP_set_aux holdsSlot s1.phases i .acquired .detected hi
    simp [holdsSlot] at hc
    dsimp only
    omega
  | ext i hi =>
    have hc := countP_set_aux holdsSlot s1.phases i .detected .extracted hi
    simp [holdsSlot] at hc
    dsimp only
    omega
  | rel i hi =>
    have hc := countP_set_aux holdsSlot s1.phases i .extracted .released hi
    simp [holdsSlot] at hc
    dsimp only
    omega
  | ret hall hr => rfl

/-- Helper: the slot-sum invariant along a whole execution. -/
theorem exec_slot_sum {s1 s2 : SchedState} {tr : List Ev} (h : Exec s1 tr s2) :
    s2.phases.countP holdsSlot + s2.sem = s1.phases.countP holdsSlot + s1.sem := by
  induction h with
  | refl s => rfl
  | step hstep hrest ih => rw [ih, schedStep_slot_sum hstep]

/-- Helper: a single scheduler step never writes the options. -/
theorem schedStep_opts {s1 s2 : SchedState} {e : Ev} (h : SchedStep s1 e s2) :
    s2.opts = s1.opts := by
  cases h <;> rfl

/-- Helper: a single scheduler step preserves the number of tasks. -/
theorem schedStep_length {s1 s2 : SchedState} {e : Ev} (h : SchedStep s1 e s2) :
    s2.phases.length = s1.phases.length := by
  cases h <;> simp

/-- Helper: an execution preserves the number of tasks. -/
theorem exec_length {s1 s2 : SchedState} {tr : List Ev} (h : Exec s1 tr s2) :
    s2.phases.length = s1.phases.length := by
  induction h with
  | refl s => rfl
  | step hstep hrest ih => rw [ih, schedStep_length hstep]

/-- Helper: an execution never writes the options. -/
theorem exec_opts {s1 s2 : SchedState} {tr : List Ev} (h : Exec s1 tr s2) :
    s2.opts = s1.opts := by
  induction h with
  | refl s => rfl
  | step hstep hrest ih => rw [ih, schedStep_opts hstep]

/-- Helper: an execution along an appended trace splits at the seam. -/
theorem exec_append_middle {s1 s3 : SchedState} (tr1 : List Ev) {e : Ev} {tr2 : List Ev}
    (h : Exec s1 (tr1 ++ e :: tr2) s3) :
    ∃ s2 s2b, Exec s1 tr1 s2 ∧ SchedStep s2 e s2b ∧ Exec s2b tr2 s3 := by
  induction tr1 generalizing s1 with
  | nil =>
    cases h with
    | step hstep hrest => exact ⟨s1, _, Exec.refl s1, hstep, hrest⟩
  | cons e1 tl ih =>
    cases h with
    | step hstep hrest =>
      obtain ⟨s2, s2b, h1, h2, h3⟩ := ih hrest
      exact ⟨s2, s2b, Exec.step hstep h1, h2, h3⟩

/-- Pipeline event of task i whose completion brings the task's phase
index to t. -/
def evFor : Nat → Nat → Ev
  | 1, i => .acq i
  | 2, i => .det i
  | 3, i => .ext i
  | _, i => .rel i

/-- Helper: across one step, task i's phase either stays put, or advances
by exactly one pipeline position with the matching event as the label. -/
theorem schedStep_phase_change {s1 s2 : SchedState} {e : Ev} (h : SchedStep s1 e s2)
    (i : Nat) (a b : TaskPhase)
    (ha : s1.phases.get? i = some a) (hb : s2.phases.get? i = some b) :
    b = a ∨ (b.idx = a.idx + 1 ∧ e = evFor b.idx i) := by
  have hlen : i < s1.phases.length := (List.get?_eq_some.mp ha).1
  cases h with
  | acq j hj hs =>
    by_cases hij : j = i
    · subst hij
      rw [ha] at hj
      injection hj with hj
      simp only [] at hb
      rw [List.get?_set_eq_of_lt _ hlen] at hb
      injection hb with hb
      subst hb
      subst hj
      right
      exact ⟨rfl, rfl⟩
    · simp only [] at hb
      rw [List.get?_set_ne _ _ hij, ha] at hb
      injection hb with hb
      exact Or.inl hb.symm
  | det j hj =>
    by_cases hij : j = i
    · subst hij
      rw [ha] at hj
      injection hj with hj
      simp only [] at hb
      rw [List.get?_set_eq_of_lt _ hlen] at hb
      injection hb with hb
      subst hb
      subst hj
      right
      exact ⟨rfl, rfl⟩
    · simp only [] at hb
      rw [List.get?_set_ne _ _ hij, ha] at hb
      injection hb with hb
      exact Or.inl hb.symm
  | ext j hj =>
    by_cases hij : j = i
    · subst hij
      rw [ha] at hj
      injection hj with hj
      simp only [] at hb
      rw [List.get?_set_eq_of_lt _ hlen] at hb
      injection hb with hb
      subst hb
      subst hj
      right
      exact ⟨rfl, rfl⟩
    · simp only [] at hb
      rw [List.get?_set_ne _ _ hij, ha] at hb
      injection hb with hb
      exact Or.inl hb.symm
  | rel j hj =>
    by_cases hij : j = i
    · subst hij
      rw [ha] at hj
      injection hj with hj
      simp only [] at hb
      rw [List.get?_set_eq_of_lt _ hlen] at hb
      injection hb with hb
      subst hb
      subst hj
      right
      exact ⟨rfl, rfl⟩
    · simp only [] at hb
      rw [List.get?_set_ne _ _ hij, ha] at hb
      injection hb with hb
      exact Or.inl hb.symm
  | ret hall hr =>
    simp only [] at hb
    rw [ha] at hb
    injection hb with hb
    exact Or.inl hb.symm

/-- Helper: a task's phase index can only cross a threshold t if the
corresponding pipeline event occurs in the trace. -/
theorem exec_event_occurred {s1 s2 : SchedState} {tr : List Ev} (h : Exec s1 tr s2)
    (t i : Nat) (a b : TaskPhase)
    (ha : s1.phases.get? i = some a) (hb : s2.phases.get? i = some b)
    (hat : a.idx < t) (hbt : t ≤ b.idx) :
    evFor t i ∈ tr := by
  induction h generalizing a with
  | refl s =>
    rw [ha] at hb
    injection hb with hb
    subst hb
    omega
  | @step sa sm sb e trr hstep hrest ih =>
    have hlen : i < sa.phases.length := (List.get?_eq_some.mp ha).1
    have hlenm : i < sm.phases.length := by rw [schedStep_length hstep]; exact hlen
    have hc : sm.phases.get? i = some (sm.phases.get ⟨i, hlenm⟩) := List.get?_eq_get hlenm
    set c := sm.phases.get ⟨i, hlenm⟩ with hcdef
    rcases schedStep_phase_change hstep i a c ha hc with hsame | ⟨hincr, hev⟩
    · exact List.mem_cons_of_mem _ (ih a (hsame ▸ hc) hb hat)
    · by_cases hcross : t ≤ c.idx
      · have ht : t = c.idx := by omega
        subst ht
        rw [hev]
        exact List.mem_cons_self _ _
      · exact List.mem_cons_of_mem _ (ih c hc hb (by omega))

/-- Helper: with inflation fixed at 0 the enlarged rectangle equals the
detected one, so the adjustment is the identity in both branches. -/
theorem adjustRect_id (image : Image) (face : Rect) : adjustRect image face = face := by
  unfold adjustRect
  simp

/-- Helper: on rectangles inside the image, extract_faces' loop from face
index k writes exactly one file per rectangle, in order, with the indexed
names and the resized crops, and throws nothing. -/
theorem extractFacesLoop_eq (image : Image) (imageIdx : Nat) (dir : String) (sz : Size)
    (faces : List Rect) (k : Nat) (h : ∀ r ∈ faces, rectInBounds image r) :
    extractFacesLoop image imageIdx dir sz faces k =
      ((faces.enumFrom k).map fun p =>
        (⟨faceFilename dir imageIdx p.1, Image.resized (Image.cropped image p.2) sz⟩ : FileWrite),
       none) := by
  induction faces generalizing k with
  | nil => rfl
  | cons face rest ih =>
    have hface : rectInBounds image face := h face (List.mem_cons_self _ _)
    have hrest : ∀ r ∈ rest, rectInBounds image r := fun r hr => h r (List.mem_cons_of_mem _ hr)
    simp only [extractFacesLoop, adjustRect_id, Image.roi, if_pos hface,
      ih (k + 1) hrest, List.enumFrom, List.map, Image.resize]

/-- Helper: elements of a replicated list. -/
theorem get?_replicate_lt {α : Type} (a : α) (n i : Nat) (h : i < n) :
    (List.replicate n a).get? i = some a := by
  induction n generalizing i with
  | zero => omega
  | succ m ih =>
    cases i with
    | zero => rfl
    | succ j => exact ih j (by omega)

/-- Helper: indexing an enumeration. -/
theorem get?_enumFrom {α : Type} (l : List α) (n i : Nat) :
    (l.enumFrom n).get? i = (l.get? i).map fun a => (n + i, a) := by
  induction l generalizing n i with
  | nil => simp [List.enumFrom]
  | cons hd tl ih =>
    cases i with
    | zero => simp [List.enumFrom]
    | succ j =>
      simp only [List.enumFrom, List.get?, ih (n + 1) j]
      have : n + 1 + j = n + (j + 1) := by omega
      rw [this]

/-- Helper: indexing List.enum. -/
theorem get?_enum {α : Type} (l : List α) (i : Nat) :
    l.enum.get? i = (l.get? i).map fun a => (i, a) := by
  have h0 := get?_enumFrom l 0 i
  simp only [Nat.zero_add] at h0
  exact h0

/-- Mode stored in a successful parse, if any. -/
def modeOf : ParseOutcome → Option Mode
  | .ok opts => some opts.mode
  | _ => none

/-- Whether a parse outcome is a thrown ArgParseError. -/
def isArgErr : ParseOutcome → Bool
  | .argError _ => true
  | _ => false

/-- Whether a parse outcome is a returned Options record. -/
def isOk : ParseOutcome → Bool
  | .ok _ => true
  | _ => false

/-- Concrete sample values used by the witness theorems. -/
def optsA : Options := { images := ["img.jpg"], output_directory := "out" }

/-- Sample OpenCV-mode options over two images. -/
def optsB : Options :=
  { mode := .OPENCV, images := ["good.jpg", "bad.jpg"], output_directory := "out" }

/-- Sample dlib detector returning no faces. -/
def dlibNone : DlibDetector := fun _ => []

/-- Sample cascade detector returning no faces. -/
def cvNone : CvDetector := fun _ _ _ _ => []

/-- Sample filesystem with no readable images. -/
def fsNone : ImageFs := fun _ => none

/-- Sample loaded image. -/
def rawImg : Image := Image.raw 100 100 0

/-- Sample filesystem where only good.jpg is readable. -/
def fsOnlyGood : ImageFs := fun p => if p = "good.jpg" then some rawImg else none

/-- Kind of a parse outcome: which of the four ways parse_args can end. -/
inductive OutcomeKind
  | okK
  | argErrorK
  | runtimeErrorK
  | helpK
deriving DecidableEq, Repr

/-- Kind of a concrete parse outcome. -/
def kindOf : ParseOutcome → OutcomeKind
  | .ok _ => .okK
  | .argError _ => .argErrorK
  | .runtimeError _ => .runtimeErrorK
  | .printedHelp => .helpK

/-- Modelled from the spec (claim C10 as amended): positional classifier
of how parse_args ends, abstracting the Options record to two booleans —
whether an image token has been accepted and whether a non-empty output
directory has been set. Scanning left to right: a help option exits; an
option that requires a value but is the last token, a min-neighbors value
that is invalid or outside the int range (std::stoi's invalid_argument
and out_of_range, both rethrown as ArgParseError), an unknown
dash-initial token in option position, and a final state with no image or
no output directory are ArgParseError; a size value that fails the WxH
parse is a runtime error (not an ArgParseError); everything else returns
the Options record. -/
def classifyLoop : List String → Bool → Bool → OutcomeKind
  | [], hasImage, hasOutput =>
    if !hasImage then .argErrorK
    else if !hasOutput then .argErrorK
    else .okK
  | arg :: rest, hasImage, hasOutput =>
    match arg.toList with
    | '-' :: _ =>
      if arg = "-o" ∨ arg = "--option" then
        match rest with
        | [] => .argErrorK
        | v :: rest2 => classifyLoop rest2 hasImage (!v.isEmpty)
      else if arg = "-v" ∨ arg = "--verbose" then
        classifyLoop rest hasImage hasOutput
      else if arg = "-h" ∨ arg = "--help" then
        .helpK
      else if arg = "-n" ∨ arg = "--min-neighbors" then
        match rest with
        | [] => .argErrorK
        | v :: rest2 =>
          match stoi? v with
          | none => .argErrorK
          | some _ => classifyLoop rest2 hasImage hasOutput
      else if arg = "--min-size" ∨ arg = "--max-size" ∨ arg = "--size" then
        match rest with
        | [] => .argErrorK
        | v :: rest2 =>
          match toSize? v with
          | none => .runtimeErrorK
          | some _ => classifyLoop rest2 hasImage hasOutput
      else if arg = "--opencv" ∨ arg = "--dlib" then
        classifyLoop rest hasImage hasOutput
      else
        .argErrorK
    | _ => classifyLoop rest true hasOutput

/-- Helper: appending a token makes the image list non-empty. -/
theorem isEmpty_append_singleton {α : Type} (l : List α) (a : α) :
    (l ++ [a]).isEmpty = false := by
  cases l <;> rfl

/-- Helper: a token that does not start with a dash is appended to the
image list. -/
theorem parseArgsLoop_image_step (arg : String) (rest : List String) (opts : Options)
    (hx : ∀ tail, ¬ arg.data = '-' :: tail) :
    parseArgsLoop (arg :: rest) opts =
      parseArgsLoop rest { opts with images := opts.images ++ [arg] } := by
  cases rest with
  | nil =>
    simp only [parseArgsLoop]
    split
    · rename_i tail htail
      exact absurd htail (hx tail)
    · rfl
  | cons v rest2 =>
    simp only [parseArgsLoop]
    split
    · rename_i tail htail
      exact absurd htail (hx tail)
    · rfl

/-- Helper: the classifier treats a token that does not start with a dash
as an image. -/
theorem classifyLoop_image_step (arg : String) (rest : List String) (hi ho : Bool)
    (hx : ∀ tail, ¬ arg.data = '-' :: tail) :
    classifyLoop (arg :: rest) hi ho = classifyLoop rest true ho := by
  cases rest with
  | nil =>
    simp only [classifyLoop]
    split
    · rename_i tail htail
      exact absurd htail (hx tail)
    · rfl
  | cons v rest2 =>
    simp only [classifyLoop]
    split
    · rename_i tail htail
      exact absurd htail (hx tail)
    · rfl

/-- Helper: parse_args ends in the way the positional classifier
predicts, for any partially filled Options record. -/
theorem kindOf_parseArgsLoop (argv : List String) (opts : Options) :
    kindOf (parseArgsLoop argv opts) =
      classifyLoop argv (!opts.images.isEmpty) (!opts.output_directory.isEmpty) := by
  induction argv, opts using parseArgsLoop.induct
  case case6 =>
    rename_i arg rest opts tail hx hno h ih
    cases rest <;>
      simp_all [parseArgsLoop, classifyLoop, kindOf, apply_ite kindOf, String.toList]
  case case7 =>
    rename_i arg rest opts tail hx h1 h2 h
    cases rest <;>
      simp_all [parseArgsLoop, classifyLoop, kindOf, apply_ite kindOf, String.toList]
  case case20 =>
    rename_i rest opts tail hx h1 h2 h3 h4 h5 h6 h7 ih
    cases rest <;>
      simp_all [parseArgsLoop, classifyLoop, kindOf, apply_ite kindOf, String.toList]
  case case21 =>
    rename_i rest opts tail hx h1 h2 h3 h4 h5 h6 h7 h8 ih
    cases rest <;>
      simp_all [parseArgsLoop, classifyLoop, kindOf, apply_ite kindOf, String.toList]
  case case22 =>
    rename_i arg rest opts tail hx h1 h2 h3 h4 h5 h6 h7 h8 h9
    cases rest <;>
      simp_all [parseArgsLoop, classifyLoop, kindOf, apply_ite kindOf, String.toList]
  case case23 =>
    rename_i arg rest opts hx ih
    rw [parseArgsLoop_image_step arg rest opts hx, classifyLoop_image_step arg rest _ _ hx, ih]
    simp [isEmpty_append_singleton]
  all_goals
    simp_all [parseArgsLoop, classifyLoop, kindOf, isEmpty_append_singleton, apply_ite kindOf]

/-- Helper: no created task holds a slot at the start of a run. -/
theorem countP_replicate_created (n : Nat) :
    (List.replicate n TaskPhase.created).countP holdsSlot = 0 := by
  induction n with
  | zero => rfl
  | succ m ih => simp [List.replicate, List.countP_cons, ih, holdsSlot]

/-- Claim C1: for every successfully loaded input image with batch index
i for which the detector returned a list of n face rectangles (each lying
within the image, as the data model requires of detected rectangles),
extract_faces writes exactly n thumbnail files, named
face{i:03d}-{j:03d}.jpg for j = 0, ..., n-1 in the order the rectangles
were returned, where the j-th file is the crop of the j-th rectangle
resized to the output thumbnail size; each rectangle is consumed by
exactly one crop and nothing is thrown. -/
theorem C1_extract_faces_writes (image : Image) (faces : List Rect) (i : Nat)
    (dir : String) (sz : Size) (h : ∀ r ∈ faces, rectInBounds image r) :
    extract_faces image faces i dir sz =
      (faces.enum.map fun p =>
        (⟨faceFilename dir i p.1, Image.resized (Image.cropped image p.2) sz⟩ : FileWrite),
       none)
    ∧ (extract_faces image faces i dir sz).1.length = faces.length := by
  have he : extract_faces image faces i dir sz =
      (faces.enum.map fun p =>
        (⟨faceFilename dir i p.1, Image.resized (Image.cropped image p.2) sz⟩ : FileWrite),
       none) :=
    extractFacesLoop_eq image i dir sz faces 0 h
  exact ⟨he, by rw [he]; simp⟩

/-- Witness for C1 at a concrete image and two rectangles. -/
theorem C1_witness :
    extract_faces rawImg [⟨0, 0, 10, 10⟩, ⟨5, 5, 20, 20⟩] 1 "out" ⟨512, 512⟩ =
      ([⟨"out/face001-000.jpg", Image.resized (Image.cropped rawImg ⟨0, 0, 10, 10⟩) ⟨512, 512⟩⟩,
        ⟨"out/face001-001.jpg", Image.resized (Image.cropped rawImg ⟨5, 5, 20, 20⟩) ⟨512, 512⟩⟩],
       none) :=
  ((C1_extract_faces_writes rawImg [⟨0, 0, 10, 10⟩, ⟨5, 5, 20, 20⟩] 1 "out" ⟨512, 512⟩
      (by decide)).1).trans (by decide)

/-- Claim C6: the bounding-box adjustment applied before cropping is the
identity on every detected rectangle within the image bounds (inflation
is 0, so the inflated rectangle equals the original, and when the
out-of-bounds check fires it restores the original rectangle). -/
theorem C6_adjustment_identity (image : Image) (face : Rect)
    (h : rectInBounds image face) : adjustRect image face = face :=
  adjustRect_id image face

/-- Witness for C6 at a concrete rectangle inside a concrete image. -/
theorem C6_witness : adjustRect rawImg ⟨1, 2, 3, 4⟩ = ⟨1, 2, 3, 4⟩ :=
  C6_adjustment_identity rawImg ⟨1, 2, 3, 4⟩ (by decide)

/-- Claim C2: at every point reachable during a run, the number of tasks
concurrently holding an admission slot (between semaphore acquire and
release) never exceeds the limiter's initial count
std::thread::hardware_concurrency() (hw). In the model the semaphore
counter is the only state written by more than one task: each task's
phase is its own control state and the options are read-only (claim C4). -/
theorem C2_bounded_admission (opts : Options) (hw : Nat) (tr : List Ev) (s : SchedState)
    (h : Exec (initState opts hw) tr s) :
    s.phases.countP holdsSlot ≤ hw := by
  have hsum := exec_slot_sum h
  simp [initState, countP_replicate_created] at hsum
  omega

/-- Witness for C2 after one task acquired its slot. -/
theorem C2_witness :
    (({ opts := optsA, sem := 0, phases := [TaskPhase.acquired], returned := false } :
        SchedState)).phases.countP holdsSlot ≤ 1 :=
  C2_bounded_admission optsA 1 [Ev.acq 0] _
    (Exec.step (SchedStep.acq (initState optsA 1) 0 (by decide) (by decide)) (Exec.refl _))

/-- Claim C3: each image's task follows the pipeline order — in every
execution trace, a detection event of task i is preceded by task i's
slot acquisition; a release event of task i is preceded by its
extraction (all faces saved), its detection and its acquisition; and the
run-returns event is preceded by the release of every task. -/
theorem C3_pipeline_order (opts : Options) (hw : Nat) (u v : List Ev) (i : Nat)
    (s : SchedState) :
    (Exec (initState opts hw) (u ++ Ev.det i :: v) s → Ev.acq i ∈ u)
  ∧ (Exec (initState opts hw) (u ++ Ev.rel i :: v) s →
      Ev.ext i ∈ u ∧ Ev.det i ∈ u ∧ Ev.acq i ∈ u)
  ∧ (Exec (initState opts hw) (u ++ Ev.ret :: v) s →
      ∀ j, j < opts.images.length → Ev.rel j ∈ u) := by
  refine ⟨?_, ?_, ?_⟩
  · intro h
    obtain ⟨s2, s2b, h1, hstep, h3⟩ := exec_append_middle u h
    cases hstep with
    | det j hj =>
      have hlen : s2.phases.length = opts.images.length := by
        rw [exec_length h1]
        simp [initState]
      have hi2 : i < s2.phases.length := (List.get?_eq_some.mp hj).1
      have hinit : (initState opts hw).phases.get? i = some .created :=
        get?_replicate_lt _ _ _ (by omega)
      exact exec_event_occurred h1 1 i .created .acquired hinit hj (by decide) (by decide)
  · intro h
    obtain ⟨s2, s2b, h1, hstep, h3⟩ := exec_append_middle u h
    cases hstep with
    | rel j hj =>
      have hlen : s2.phases.length = opts.images.length := by
        rw [exec_length h1]
        simp [initState]
      have hi2 : i < s2.phases.length := (List.get?_eq_some.mp hj).1
      have hinit : (initState opts hw).phases.get? i = some .created :=
        get?_replicate_lt _ _ _ (by omega)
      exact ⟨exec_event_occurred h1 3 i .created .extracted hinit hj (by decide) (by decide),
             exec_event_occurred h1 2 i .created .extracted hinit hj (by decide) (by decide),
             exec_event_occurred h1 1 i .created .extracted hinit hj (by decide) (by decide)⟩
  · intro h
    obtain ⟨s2, s2b, h1, hstep, h3⟩ := exec_append_middle u h
    cases hstep with
    | ret hall hr =>
      intro j hjlt
      have hlen : s2.phases.length = opts.images.length := by
        rw [exec_length h1]
        simp [initState]
      have hjlen : j < s2.phases.length := by omega
      have hc : s2.phases.get? j = some (s2.phases.get ⟨j, hjlen⟩) := List.get?_eq_get hjlen
      have hrelj := hall _ (List.get_mem s2.phases j hjlen)
      have hb : s2.phases.get? j = some TaskPhase.released := by rw [hc, hrelj]
      have hinit : (initState opts hw).phases.get? j = some .created :=
        get?_replicate_lt _ _ _ hjlt
      exact exec_event_occurred h1 4 j .created .released hinit hb (by decide) (by decide)

/-- Witness for C3: in the trace acquire-then-detect of a one-image run,
the acquisition indeed appears before the detection. -/
theorem C3_witness : Ev.acq 0 ∈ [Ev.acq 0] :=
  (C3_pipeline_order optsA 1 [Ev.acq 0] [] 0 _).1
    (Exec.step (SchedStep.acq (initState optsA 1) 0 (by decide) (by decide))
      (Exec.step (SchedStep.det _ 0 (by decide)) (Exec.refl _)))

/-- Claim C4: after parse_args returns, no field of the Options record is
modified: in every reachable state of a run the options equal the parsed
options, all fields included. -/
theorem C4_options_read_only (opts : Options) (hw : Nat) (tr : List Ev) (s : SchedState)
    (h : Exec (initState opts hw) tr s) : s.opts = opts := by
  have h0 := exec_opts h
  simpa [initState] using h0

/-- Witness for C4 after one scheduler step. -/
theorem C4_witness :
    (({ opts := optsA, sem := 0, phases := [TaskPhase.acquired], returned := false } :
        SchedState)).opts = optsA :=
  C4_options_read_only optsA 1 [Ev.acq 0] _
    (Exec.step (SchedStep.acq (initState optsA 1) 0 (by decide) (by decide)) (Exec.refl _))

/-- Claim C5: detection is performed only by one of the two external
detectors, selected by the parsed mode: DLIB (the default, or after
--dlib) dispatches run to the dlib frontal-face detector and OPENCV
(after --opencv) dispatches it to the OpenCV cascade classifier. -/
theorem C5_detector_dispatch (d : DlibDetector) (cv : CvDetector) (fs : ImageFs)
    (opts : Options) :
    (run d cv fs opts).detector = modeDetector opts.mode
  ∧ (opts.mode = Mode.DLIB → run d cv fs opts = run_dlib d fs opts)
  ∧ (opts.mode = Mode.OPENCV → run d cv fs opts = run_opencv cv fs opts)
  ∧ modeOf (parse_args ["img.jpg", "-o", "out"]) = some Mode.DLIB
  ∧ modeOf (parse_args ["img.jpg", "-o", "out", "--opencv"]) = some Mode.OPENCV
  ∧ modeOf (parse_args ["img.jpg", "-o", "out", "--dlib"]) = some Mode.DLIB := by
  refine ⟨?_, ?_, ?_, by decide, by decide, by decide⟩
  · cases hm : opts.mode <;> simp [run, modeDetector, hm, run_dlib, run_opencv]
  · intro hm
    simp [run, hm]
  · intro hm
    simp [run, hm]

/-- Witness for C5 in default dlib mode. -/
theorem C5_witness : run dlibNone cvNone fsNone optsA = run_dlib dlibNone fsNone optsA :=
  (C5_detector_dispatch dlibNone cvNone fsNone optsA).2.1 rfl

/-- Claim C7: the Options record produced by parse_args contains exactly
the input file paths, the output directory, optional minimum and maximum
face sizes, the output thumbnail size, the minimum-neighbor threshold,
the verbosity flag and the detector-mode selector, and each field is
settable from the command line: the first conjunct shows the defaults,
and each further conjunct sets one field away from its default. -/
theorem C7_options_record :
    parse_args ["img.jpg", "-o", "out"] =
      ParseOutcome.ok
        { mode := Mode.DLIB, images := ["img.jpg"], output_directory := "out",
          output_size := ⟨512, 512⟩, min_size := some ⟨512, 512⟩, max_size := none,
          verbose := false, min_neighbors := 3 }
  ∧ parse_args ["i", "-o", "d", "--opencv"] =
      ParseOutcome.ok { mode := Mode.OPENCV, images := ["i"], output_directory := "d" }
  ∧ parse_args ["i", "-o", "d", "-v"] =
      ParseOutcome.ok { images := ["i"], output_directory := "d", verbose := true }
  ∧ parse_args ["i", "-o", "d", "-n", "5"] =
      ParseOutcome.ok { images := ["i"], output_directory := "d", min_neighbors := 5 }
  ∧ parse_args ["i", "-o", "d", "--min-size", "1x2"] =
      ParseOutcome.ok { images := ["i"], output_directory := "d", min_size := some ⟨1, 2⟩ }
  ∧ parse_args ["i", "-o", "d", "--max-size", "3x4"] =
      ParseOutcome.ok { images := ["i"], output_directory := "d", max_size := some ⟨3, 4⟩ }
  ∧ parse_args ["i", "-o", "d", "--size", "7x8"] =
      ParseOutcome.ok { images := ["i"], output_directory := "d", output_size := ⟨7, 8⟩ } :=
  ⟨by decide, by decide, by decide, by decide, by decide, by decide, by decide⟩

/-- Counterexample to claim C8 as stated: an argument vector containing
the token --output on which parse_args does not throw — the token is
consumed as the value of the preceding -o and becomes the output
directory. -/
theorem C8_counterexample :
    parse_args ["img.jpg", "-o", "--output"] =
      ParseOutcome.ok
        { mode := Mode.DLIB, images := ["img.jpg"], output_directory := "--output",
          output_size := ⟨512, 512⟩, min_size := some ⟨512, 512⟩, max_size := none,
          verbose := false, min_neighbors := 3 }
  ∧ isArgErr (parse_args ["img.jpg", "-o", "--output"]) = false :=
  ⟨by decide, by decide⟩

/-- Claim C8 (amended): the spellings that set the output directory are
exactly -o and --option, and a token --output met in option position
(not consumed as the value of a preceding value-taking option) makes
parse_args throw ArgParseError reporting an unknown argument, even though
print_help documents the long form --output DIR. -/
theorem C8_output_option_spelling (rest rest2 : List String) (v : String)
    (opts opts2 : Options) :
    parseArgsLoop ("--output" :: rest) opts =
      ParseOutcome.argError "unknown argument --output given"
  ∧ parseArgsLoop ("-o" :: v :: rest2) opts2 =
      parseArgsLoop rest2 { opts2 with output_directory := v }
  ∧ parseArgsLoop ("--option" :: v :: rest2) opts2 =
      parseArgsLoop rest2 { opts2 with output_directory := v } := by
  refine ⟨?_, ?_, ?_⟩
  · cases rest <;> simp [parseArgsLoop]
  · simp [parseArgsLoop]
  · simp [parseArgsLoop]

/-- Counterexample to claim C9 as stated: in the default dlib mode an
unreadable input image does not produce a stderr message and an otherwise
normal continuation — there is no emptiness check before the grayscale
conversion, so the task throws and run's join loop rethrows. -/
theorem C9_counterexample :
    run dlibNone cvNone fsNone
        { mode := Mode.DLIB, images := ["bad.jpg"], output_directory := "out" } =
      ⟨DetectorKind.dlibFrontal,
       [⟨[], [], some "cv::cvtColor assertion failed: empty input image bad.jpg"⟩],
       some "cv::cvtColor assertion failed: empty input image bad.jpg"⟩
  ∧ (⟨[], [], some "cv::cvtColor assertion failed: empty input image bad.jpg"⟩ : TaskResult) ≠
      ⟨[], ["error: failed to read image: bad.jpg"], none⟩ :=
  ⟨by decide, by decide⟩

/-- Claim C9 (amended): in OpenCV cascade mode a failure to load one
input image does not abort the batch — the task prints the error line to
stderr, writes no files and throws nothing, and every task's result is
the same as if it ran alone, so the other images are unaffected. -/
theorem C9_opencv_load_failure_isolated (cv : CvDetector) (fs : ImageFs) (opts : Options)
    (j : Nat) (path : String)
    (hj : opts.images.get? j = some path) (hfail : fs path = none) :
    (run_opencv cv fs opts).tasks.get? j =
      some ⟨[], ["error: failed to read image: " ++ path], none⟩
  ∧ ∀ k pk, opts.images.get? k = some pk →
      (run_opencv cv fs opts).tasks.get? k = some (opencvTask cv fs opts k pk) := by
  have hmap : ∀ k, (run_opencv cv fs opts).tasks.get? k =
      ((opts.images.get? k).map fun a => opencvTask cv fs opts k a) := by
    intro k
    simp only [run_opencv]
    rw [List.get?_map, get?_enum]
    cases opts.images.get? k <;> rfl
  constructor
  · rw [hmap j, hj]
    simp [opencvTask, hfail]
  · intro k pk hk
    rw [hmap k, hk]
    rfl

/-- Witness for C9 (amended): in a two-image OpenCV batch whose second
image is unreadable, the second task reports the failed read. -/
theorem C9_witness :
    (run_opencv cvNone fsOnlyGood optsB).tasks.get? 1 =
      some ⟨[], ["error: failed to read image: bad.jpg"], none⟩ :=
  (C9_opencv_load_failure_isolated cvNone fsOnlyGood optsB 1 "bad.jpg"
    (by decide) (by decide)).1

/-- Counterexample to claim C10 as stated: the vector ["-h"] contains no
image path, so by the claim parse_args should throw ArgParseError; the
code instead prints the help text and exits successfully, returning no
Options and throwing nothing. -/
theorem C10_counterexample :
    parse_args ["-h"] = ParseOutcome.printedHelp
  ∧ isArgErr (parse_args ["-h"]) = false
  ∧ isOk (parse_args ["-h"]) = false :=
  ⟨by decide, by decide, by decide⟩

/-- Claim C10 (amended): scanning left to right, parse_args prints help
and exits at the first -h or --help in option position; throws
runtime_error (not ArgParseError) at the first size option whose value
fails the WxH parse; throws ArgParseError exactly when, before either of
those, it meets a value-taking option as the last token, a min-neighbors
value that is invalid or outside the int range, an unrecognised
dash-initial token in option position, or finishes with no image token
or no non-empty output directory; and on every other argument vector
returns an Options record — as captured by the positional classifier
classifyLoop. -/
theorem C10_outcome_characterization (argv : List String) :
    kindOf (parse_args argv) = classifyLoop argv false false :=
  kindOf_parseArgsLoop argv {}
